import Mathlib

/-!
# Formal model of the cpp-monitor bot (`src/main.py`)

A shallow embedding of the entry-tracking and status-transition core of the
bot: the status classifier (`find_entry`, `check_entry_status`), the JSON
watch-list persistence (`load_entries`), the add-entry handler
(`handle_add`), the reminder loop (`periodic_notify`), the polling loop
(`monitor_gsheet` and its cycle machinery) and the lifecycle controller
(`start_monitoring`, `stop_monitoring`).

Remote effects are made explicit: a fetch of one sheet is an
`Option (List Row)` (`none` models `get_gsheet_csv` raising, which the
per-sheet `try` in the source catches and logs), and each Telegram
`send_message` call consumes the next outcome from a plan of booleans
(`false` models the call raising).  Sent/failed messages, and calls of the
`open_image` side-effect hook, are recorded in an event list.
-/

/-- One fetched CSV row, restricted to the five columns the source reads.
`none` models a column absent from the row (Python `row.get(k)` returning
`None`); `some s` a present value.  Field correspondence:
`timestampCol` ↔ column "Метка времени", `fioCol` ↔ "ФИО",
`zadanieCol` ↔ "Задание", `proverCol` ↔ "Проверяющий" (reviewer),
`otsenkaCol` ↔ "Оценка" (grade). -/
structure Row where
  timestampCol : Option String
  fioCol : Option String
  zadanieCol : Option String
  proverCol : Option String
  otsenkaCol : Option String
deriving DecidableEq, Repr

/-- Python truthiness of `row.get(k)`: `None` and the empty string are
falsy, any non-empty string is truthy. -/
def truthy : Option String → Bool
  | none => false
  | some s => !(s == "")

/-- A tracked entry: the (timestamp, name, task) triple stored in
`entries.json`. -/
structure Record where
  timestamp : String
  name : String
  task : String
deriving DecidableEq, Repr

/-- `find_entry` from the source: linear scan for the first row whose three
designated columns equal the record's fields exactly. -/
def find_entry (data : List Row) (timestamp name task : String) : Option Row :=
  data.find? fun row =>
    row.timestampCol == some timestamp
      && row.fioCol == some name
      && row.zadanieCol == some task

/-- One sheet's fetch outcome: `none` when `get_gsheet_csv` raised (the
source catches the exception per sheet and moves on), `some data` when the
fetch returned rows. -/
abbrev Fetch := Option (List Row)

/-- `check_entry_status` from the source: walk the configured sheets in
order; a failed fetch is skipped; in the first sheet whose data contains a
matching row, classify that row (grade set → "checked", else reviewer set
and grade unset → "on_review", else "exists") and return without looking at
later sheets; if no sheet matches, return "not_found". -/
def check_entry_status : List Fetch → String → String → String → String × Option Row
  | [], _, _, _ => ("not_found", none)
  | none :: rest, timestamp, name, task => check_entry_status rest timestamp name task
  | some data :: rest, timestamp, name, task =>
    match find_entry data timestamp name task with
    | some row =>
      if truthy row.otsenkaCol then ("checked", some row)
      else if truthy row.proverCol && !truthy row.otsenkaCol then ("on_review", some row)
      else ("exists", some row)
    | none => check_entry_status rest timestamp name task

/-- A source (either a failed fetch or fetched data) contains no row
matching the given triple. -/
def srcNoMatch (src : Fetch) (timestamp name task : String) : Bool :=
  match src with
  | none => true
  | some data => (find_entry data timestamp name task).isNone

/-!
## Persistence (`load_entries`)

`load_entries` in the source is:
```
if os.path.exists(ENTRIES_FILE):
    with open(ENTRIES_FILE, encoding='utf-8') as f:
        try:
            return json.load(f)
        except Exception as e:
            logger.error(...); return []
return []
```
Note that only `json.load` is inside the `try`; the `open` call is not.
-/

/-- The observable states of the backing `entries.json` file:
absent (`os.path.exists` is false), present but `open()` raises
(e.g. a permission error), present and openable but `json.load` raises,
or present with a well-formed entry list. -/
inductive EntriesFile
  | absent
  | openFails
  | unparsable
  | ok (entries : List Record)
deriving DecidableEq, Repr

/-- `load_entries` from the source.  `.error ()` models an uncaught
exception propagating to the caller: this happens exactly when the file
exists but `open` itself raises, because the `try` block only wraps
`json.load`.  A `json.load` failure is caught, logged and turned into `[]`;
an absent file yields `[]`. -/
def load_entries : EntriesFile → Except Unit (List Record)
  | .absent => .ok []
  | .openFails => .error ()
  | .unparsable => .ok []
  | .ok entries => .ok entries

/-!
## The add-entry path of `handle_entry_lines`

We model the handler from the point where the three stripped lines
(timestamp, name, task) are in hand: it runs `check_entry_status`, then
branches on the status string.  The returned triple is (new entry list,
whether `save_entries` was called, the replies sent), with replies given by
the literal (pre-`escape_md`) texts of the source.
-/

def msgNotFoundReject : String := "Такой посылки нет ни в одной из таблиц. Добавление отменено."

def msgAlreadyCheckedReject : String := "Эта посылка уже проверена. Добавление отменено."

def msgOnReviewNote : String := "Эта посылка уже на проверке и будет добавлена для отслеживания."

def msgAdded : String := "Посылка добавлена к мониторингу."

def msgAlreadyTracked : String := "Эта посылка уже отслеживается."

/-- The add-entry branch of `handle_entry_lines`, after parsing:
`status := check_entry_status(...)`; "not_found" and "checked" are rejected
with no store mutation; "on_review" and "exists" append the new record and
save unless it is already present, in which case the store is left alone
and the duplicate is reported. -/
def handle_add (fetches : List Fetch) (timestamp name task : String)
    (entries : List Record) : List Record × Bool × List String :=
  let status := (check_entry_status fetches timestamp name task).1
  let new_entry : Record := ⟨timestamp, name, task⟩
  if status = "not_found" then
    (entries, false, [msgNotFoundReject])
  else if status = "checked" then
    (entries, false, [msgAlreadyCheckedReject])
  else if status = "on_review" then
    if new_entry ∉ entries then
      (entries ++ [new_entry], true, [msgOnReviewNote, msgAdded])
    else
      (entries, false, [msgOnReviewNote, msgAlreadyTracked])
  else if status = "exists" then
    if new_entry ∉ entries then
      (entries ++ [new_entry], true, [msgAdded])
    else
      (entries, false, [msgAlreadyTracked])
  else
    (entries, false, [])

/-!
## The reminder loop (`periodic_notify`)

```
while True:
    try:
        await bot.send_message(user_id, escape_md(text))
    except Exception as e:
        logger.error(...)
    await asyncio.sleep(PERIODIC_NOTIFY_INTERVAL)
```
The loop has no exit of its own; it ends only by task cancellation.  We
give it explicit fuel (the number of iterations observed before the task is
cancelled) and a send-outcome oracle, and record each iteration.
-/

/-- `PERIODIC_NOTIFY_INTERVAL` from the source configuration block. -/
def PERIODIC_NOTIFY_INTERVAL : Nat := 30

/-- `FETCH_INTERVAL` from the source configuration block. -/
def FETCH_INTERVAL : Nat := 10

/-- One observed iteration of the reminder loop: the text handed to
`bot.send_message`, whether that send succeeded (`false` = it raised and
was logged), and the sleep length that followed. -/
structure ReminderTick where
  text : String
  sendOk : Bool
  sleep : Nat
deriving DecidableEq, Repr

/-- `periodic_notify` from the source, run for `fuel` iterations starting
at tick index `i`; `oracle j` tells whether the `j`-th send succeeds.  Each
iteration attempts the send (a failure is swallowed) and then sleeps
`PERIODIC_NOTIFY_INTERVAL`; nothing ever breaks the loop. -/
def periodic_notify (text : String) (oracle : Nat → Bool) : Nat → Nat → List ReminderTick
  | _, 0 => []
  | i, fuel + 1 =>
    ⟨text, oracle i, PERIODIC_NOTIFY_INTERVAL⟩ :: periodic_notify text oracle (i + 1) fuel

/-!
## The polling loop (`monitor_gsheet`)

Source structure per `while True` iteration (one cycle):
```
entries = load_entries()
if not entries: sleep; continue
for gid in SHEET_GIDS:
    try:
        data = get_gsheet_csv(SPREADSHEET_ID, gid)
        for entry in entries:
            row = find_entry(data, timestamp, name, task)
            if not row: continue
            if row.get("Проверяющий") and not row.get("Оценка"):   # on review
                if entry_id not in notified_on_review:
                    notified_on_review.add(entry_id)
                    await bot.send_message(...)        # may raise
                    open_image()
            if row.get("Оценка"):                                  # checked
                await bot.send_message(...)            # may raise
                open_image()
                monitoring_task.cancel(); notify_task.cancel()
                notify_task = create_task(periodic_notify(...))
                return
    except Exception: logger.error(...)                # per-sheet catch
await asyncio.sleep(FETCH_INTERVAL)
```
An exception from a send propagates to the per-sheet `except`, aborting the
remaining entries of that sheet only.  `notified_on_review` is cleared once
when `monitor_gsheet` starts.
-/

/-- `entry_id` as built in the source: the three fields joined by `|`. -/
def entry_id (e : Record) : String :=
  e.timestamp ++ "|" ++ e.name ++ "|" ++ e.task

/-- Observable events of the polling loop, in emission order.
`sentOnReview`/`failedOnReview` record the `bot.send_message` call of the
"на проверке" notification for the given tracked entry (the message text
carries the name and task; we also record the entry's timestamp to identify
the triggering record); `sentGraded`/`failedGraded` likewise for the
"проверена, мониторинг остановлен" notification; `imageOpened` records a
call of the `open_image` hook (whose own failures are caught internally
and never propagate). -/
inductive Event
  | sentOnReview (timestamp name task : String)
  | failedOnReview (timestamp name task : String)
  | sentGraded (name task : String)
  | failedGraded (name task : String)
  | imageOpened
deriving DecidableEq, Repr

/-- Mutable state threaded through the loop: the global
`notified_on_review` set (as a list of keys, membership is what matters)
and the remaining plan of send outcomes (`false` = that send raises;
an exhausted plan means every further send succeeds). -/
structure St where
  notified : List String
  plan : List Bool
deriving DecidableEq, Repr

/-- Result of processing one entry against one sheet's data: continue with
the next entry, an exception escaped to the per-sheet handler (`raised`),
or the `return` on a graded entry (`stopped`, carrying the name and task
handed to `periodic_notify`).  Each result carries the state and the events
emitted by this entry. -/
inductive StepRes
  | cont (st : St) (evs : List Event)
  | raised (st : St) (evs : List Event)
  | stopped (st : St) (evs : List Event) (name task : String)
deriving DecidableEq, Repr

/-- The state inside a step result. -/
def StepRes.st : StepRes → St
  | .cont st _ => st
  | .raised st _ => st
  | .stopped st _ _ _ => st

/-- The events inside a step result. -/
def StepRes.evs : StepRes → List Event
  | .cont _ evs => evs
  | .raised _ evs => evs
  | .stopped _ evs _ _ => evs

/-- The "checked" block at the end of the per-entry body: if the matched
row's grade field is truthy, send the graded notification — popping the
next outcome from the plan; a failure raises out of the entry loop — then
open the image and `return`, stopping the monitor and starting the reminder
loop for this entry. -/
def checkedBlock (row : Row) (e : Record) (st : St) (evs : List Event) : StepRes :=
  if truthy row.otsenkaCol then
    if st.plan.headD true then
      .stopped ⟨st.notified, st.plan.tail⟩
        (evs ++ [.sentGraded e.name e.task, .imageOpened]) e.name e.task
    else
      .raised ⟨st.notified, st.plan.tail⟩ (evs ++ [.failedGraded e.name e.task])
  else
    .cont st evs

/-- The per-entry body of the inner loop: look the entry up in this sheet's
data; on a match run the on-review block (dedup through
`notified_on_review`, with the key inserted before the send is attempted)
and then the checked block on the same row. -/
def processEntry (data : List Row) (e : Record) (st : St) : StepRes :=
  match find_entry data e.timestamp e.name e.task with
  | none => .cont st []
  | some row =>
    if truthy row.proverCol && !truthy row.otsenkaCol then
      if entry_id e ∈ st.notified then
        checkedBlock row e st []
      else
        if st.plan.headD true then
          checkedBlock row e ⟨entry_id e :: st.notified, st.plan.tail⟩
            [.sentOnReview e.timestamp e.name e.task, .imageOpened]
        else
          .raised ⟨entry_id e :: st.notified, st.plan.tail⟩
            [.failedOnReview e.timestamp e.name e.task]
    else
      checkedBlock row e st []

/-- The inner `for entry in entries` loop over one sheet's data: a raised
send aborts the remaining entries (the per-sheet `except` catches it), a
`stopped` result aborts everything. -/
def processEntries (data : List Row) : List Record → St → StepRes
  | [], st => .cont st []
  | e :: rest, st =>
    match processEntry data e st with
    | .cont st1 evs =>
      match processEntries data rest st1 with
      | .cont st2 evs' => .cont st2 (evs ++ evs')
      | .raised st2 evs' => .raised st2 (evs ++ evs')
      | .stopped st2 evs' n k => .stopped st2 (evs ++ evs') n k
    | r => r

/-- Outcome of a cycle (or of a whole monitor run): final state, events in
order, and `some (name, task)` when the loop returned after a graded entry,
handing that record's message to `periodic_notify`. -/
structure MonOut where
  st : St
  events : List Event
  reminder : Option (String × String)
deriving DecidableEq, Repr

/-- The outer `for gid in SHEET_GIDS` loop of one cycle: a failed fetch is
logged and skipped; a raised send likewise ends only that sheet's entry
loop; a `stopped` result ends the cycle (and the whole monitor). -/
def processGids : List Fetch → List Record → St → MonOut
  | [], _, st => ⟨st, [], none⟩
  | none :: rest, entries, st => processGids rest entries st
  | some data :: rest, entries, st =>
    match processEntries data entries st with
    | .cont st1 evs =>
      let out := processGids rest entries st1
      ⟨out.st, evs ++ out.events, out.reminder⟩
    | .raised st1 evs =>
      let out := processGids rest entries st1
      ⟨out.st, evs ++ out.events, out.reminder⟩
    | .stopped st1 evs n k => ⟨st1, evs, some (n, k)⟩

/-- One `while True` iteration of `monitor_gsheet`: entries are re-loaded
each cycle; an empty list skips the sheets entirely. -/
def pollCycle (entries : List Record) (fetches : List Fetch) (st : St) : MonOut :=
  if entries.isEmpty then ⟨st, [], none⟩ else processGids fetches entries st

/-- A cycle's input: the entry list `load_entries()` returned this cycle
and the fetch outcome of each configured sheet. -/
abbrev CycleIn := List Record × List Fetch

/-- Run successive polling cycles until the loop returns (a graded entry)
or the observation window `inputs` is exhausted (the task was cancelled
externally). -/
def runCycles : List CycleIn → St → MonOut
  | [], st => ⟨st, [], none⟩
  | (entries, fetches) :: rest, st =>
    match pollCycle entries fetches st with
    | ⟨st1, evs, some r⟩ => ⟨st1, evs, some r⟩
    | ⟨st1, evs, none⟩ =>
      let out := runCycles rest st1
      ⟨out.st, evs ++ out.events, out.reminder⟩

/-- `monitor_gsheet`: clears the global `notified_on_review` set, then
polls. -/
def monitor_gsheet (inputs : List CycleIn) (st : St) : MonOut :=
  runCycles inputs ⟨[], st.plan⟩

/-!
## Lifecycle controller (`start_monitoring`, `stop_monitoring`)

The source keeps two module-level handles, `monitoring_task` and
`notify_task` (each `Optional[asyncio.Task]`).  We model a task by a
numeric id and keep, alongside the handles, the registry of polling-task
and reminder-task ids that are currently alive (created, not yet finished
or cancelled); `t.done()` is "its id is not in the registry".  `next` is a
fresh-id counter.
-/

/-- Lifecycle state: the two global task handles of the source plus the
alive-task registries and a fresh-id counter. -/
structure BotSt where
  monitoring_task : Option Nat
  notify_task : Option Nat
  pollAlive : List Nat
  notifyAlive : List Nat
  next : Nat
deriving DecidableEq, Repr

/-- The state at process start: no handles, no alive tasks. -/
def botInit : BotSt := ⟨none, none, [], [], 0⟩

/-- `task.done()` for the task an optional handle refers to; a `None`
handle has no running task. `not monitoring_task or monitoring_task.done()`
is exactly `handleDone st.pollAlive st.monitoring_task`. -/
def handleDone (alive : List Nat) : Option Nat → Bool
  | none => true
  | some id => !(alive.contains id)

/-- Reply of `/monitor` when a fresh task is created. -/
def msgMonitoringStarted : String := "Мониторинг запущен!"

/-- Reply of `/monitor` when a polling task is already running. -/
def msgAlreadyRunning : String := "Мониторинг уже работает."

/-- The single reply `/stop` always sends. -/
def msgStopped : String := "Мониторинг и уведомления остановлены."

/-- `start_monitoring` (`/monitor`): if there is no polling task or the
recorded one is done, create a fresh polling task and store its handle;
otherwise reply that monitoring is already running and change nothing. -/
def start_monitoring (st : BotSt) : BotSt × String :=
  if handleDone st.pollAlive st.monitoring_task then
    ({ st with
        monitoring_task := some st.next
        pollAlive := st.next :: st.pollAlive
        next := st.next + 1 },
      msgMonitoringStarted)
  else
    (st, msgAlreadyRunning)

/-- The first block of `stop_monitoring`:
`if monitoring_task and not monitoring_task.done(): cancel; = None`. -/
def cancelPolling (st : BotSt) : BotSt :=
  match st.monitoring_task with
  | some id =>
    if st.pollAlive.contains id then
      { st with monitoring_task := none, pollAlive := st.pollAlive.erase id }
    else st
  | none => st

/-- The second block of `stop_monitoring`:
`if notify_task and not notify_task.done(): cancel; = None`. -/
def cancelNotify (st : BotSt) : BotSt :=
  match st.notify_task with
  | some id =>
    if st.notifyAlive.contains id then
      { st with notify_task := none, notifyAlive := st.notifyAlive.erase id }
    else st
  | none => st

/-- `stop_monitoring` (`/stop`): cancel the polling task and clear its
handle if one is recorded and not done; likewise for the reminder task;
always answer with the same "stopped" message. -/
def stop_monitoring (st : BotSt) : BotSt × String :=
  (cancelNotify (cancelPolling st), msgStopped)

/-- The lifecycle effect of the polling task reaching a graded entry
(the tail of `monitor_gsheet`): cancel the recorded polling task (the
handle itself is not cleared), cancel any recorded reminder task, create a
fresh reminder task, and return (which also ends the polling task).  If no
polling task is alive the event cannot occur and is a no-op. -/
def finish_checked (st : BotSt) : BotSt :=
  if handleDone st.pollAlive st.monitoring_task then st
  else
    let st1 :=
      match st.monitoring_task with
      | some id => { st with pollAlive := st.pollAlive.erase id }
      | none => st
    let st2 :=
      match st1.notify_task with
      | some id => { st1 with notifyAlive := st1.notifyAlive.erase id }
      | none => st1
    { st2 with
        notify_task := some st2.next
        notifyAlive := st2.next :: st2.notifyAlive
        next := st2.next + 1 }

/-- The lifecycle-relevant commands: the two chat commands and the
monitor's own terminal transition. -/
inductive BotCmd
  | monitor
  | stop
  | checkedFound
deriving DecidableEq, Repr

/-- One lifecycle step. -/
def botStep (st : BotSt) : BotCmd → BotSt
  | .monitor => (start_monitoring st).1
  | .stop => (stop_monitoring st).1
  | .checkedFound => finish_checked st

/-- Run a command sequence from a state. -/
def runCmds (st : BotSt) : List BotCmd → BotSt
  | [] => st
  | c :: cs => runCmds (botStep st c) cs

/-- The handle/registry invariant for polling tasks, as a function of the
registry and the handle: either no polling task is alive, or exactly one is
and the `monitoring_task` handle refers to it. -/
def pollInvAux : List Nat → Option Nat → Bool
  | [], _ => true
  | [x], some id => x == id
  | _, _ => false

/-- The handle/registry invariant of a lifecycle state. -/
def pollInv (st : BotSt) : Bool :=
  pollInvAux st.pollAlive st.monitoring_task

/-!
## Counting on-review notification attempts

`evKey` assigns to each on-review send attempt (successful or raised) the
dedup key of the record that triggered it; `countKey K evs` counts the
attempts for key `K` in an event list.  `OncePer K pre post evs` is the
at-most-once contract of one processing step that turns notified-set `pre`
into `post` while emitting `evs`.
-/

/-- The dedup key of an event, when the event is an on-review send
attempt. -/
def evKey : Event → Option String
  | .sentOnReview t n k => some (entry_id ⟨t, n, k⟩)
  | .failedOnReview t n k => some (entry_id ⟨t, n, k⟩)
  | _ => none

/-- Number of on-review send attempts for dedup key `K`. -/
def countKey (K : String) : List Event → Nat
  | [] => 0
  | ev :: rest => (if evKey ev = some K then 1 else 0) + countKey K rest

/-- The at-most-once contract of a processing step: keys already notified
stay notified and trigger no further attempt; a key not yet notified gets
at most one attempt, and ends up notified exactly when an attempt was
made. -/
def OncePer (K : String) (pre post : List String) (evs : List Event) : Prop :=
  (K ∈ pre → K ∈ post ∧ countKey K evs = 0) ∧
  (K ∉ pre → countKey K evs ≤ 1 ∧ (K ∈ post ↔ countKey K evs = 1))

/-!
## Lemmas
-/

theorem countKey_append (K : String) (a b : List Event) :
    countKey K (a ++ b) = countKey K a + countKey K b := by
  induction a with
  | nil => simp [countKey]
  | cons ev rest ih => simp [countKey, ih]; omega

theorem pollInv_cases (st : BotSt) (h : pollInv st = true) :
    st.pollAlive = [] ∨ (∃ x, st.pollAlive = [x] ∧ st.monitoring_task = some x) := by
  obtain ⟨mt, nt, pa, na, nx⟩ := st
  cases pa with
  | nil => exact Or.inl rfl
  | cons a t =>
    cases t with
    | nil =>
      cases mt with
      | none => exact absurd h (by simp [pollInv, pollInvAux])
      | some id =>
        refine Or.inr ⟨a, rfl, ?_⟩
        simp only [pollInv, pollInvAux, beq_iff_eq] at h
        simp [h]
    | cons b t2 => exact absurd h (by simp [pollInv, pollInvAux])

theorem pollInv_of_nil (st : BotSt) (h : st.pollAlive = []) : pollInv st = true := by
  simp [pollInv, h, pollInvAux]

theorem handleDone_of_nil (mt : Option Nat) : handleDone [] mt = true := by
  cases mt <;> simp [handleDone]

theorem cancelNotify_pollAlive (st : BotSt) :
    (cancelNotify st).pollAlive = st.pollAlive := by
  unfold cancelNotify
  cases st.notify_task with
  | none => rfl
  | some id =>
    by_cases h : id ∈ st.notifyAlive <;> simp [h]

theorem cancelNotify_monitoring_task (st : BotSt) :
    (cancelNotify st).monitoring_task = st.monitoring_task := by
  unfold cancelNotify
  cases st.notify_task with
  | none => rfl
  | some id =>
    by_cases h : id ∈ st.notifyAlive <;> simp [h]

theorem cancelNotify_pollInv (st : BotSt) :
    pollInv (cancelNotify st) = pollInv st := by
  unfold pollInv
  rw [cancelNotify_pollAlive, cancelNotify_monitoring_task]

theorem cancelPolling_pollInv (st : BotSt) (h : pollInv st = true) :
    pollInv (cancelPolling st) = true := by
  rcases pollInv_cases st h with hnil | ⟨x, hpa, hmt⟩
  · unfold cancelPolling
    cases hm : st.monitoring_task with
    | none => exact h
    | some id =>
      rw [hnil]
      simp [pollInv, hnil, pollInvAux]
  · unfold cancelPolling
    rw [hmt, hpa]
    simp only [List.contains_cons, List.elem_nil, Bool.or_false, beq_self_eq_true,
      Bool.true_or, if_true]
    apply pollInv_of_nil
    simp [List.erase_cons_head]

theorem start_pollInv (st : BotSt) (h : pollInv st = true) :
    pollInv (start_monitoring st).1 = true := by
  unfold start_monitoring
  by_cases hd : handleDone st.pollAlive st.monitoring_task = true
  · have hnil : st.pollAlive = [] := by
      rcases pollInv_cases st h with hnil | ⟨x, hpa, hmt⟩
      · exact hnil
      · rw [hmt, hpa] at hd
        simp [handleDone] at hd
    rw [if_pos hd]
    simp [pollInv, pollInvAux, hnil]
  · rw [if_neg hd]
    exact h

theorem finish_pollInv (st : BotSt) (h : pollInv st = true) :
    pollInv (finish_checked st) = true := by
  unfold finish_checked
  by_cases hd : handleDone st.pollAlive st.monitoring_task = true
  · simp only [hd, if_true]
    exact h
  · simp only [hd, if_false]
    have hshape : ∃ x, st.pollAlive = [x] ∧ st.monitoring_task = some x := by
      rcases pollInv_cases st h with hnil | hs
      · rw [hnil, handleDone_of_nil] at hd
        exact absurd rfl hd
      · exact hs
    obtain ⟨x, hpa, hmt⟩ := hshape
    rw [hmt]
    apply pollInv_of_nil
    cases hnt : ({ st with pollAlive := st.pollAlive.erase x } : BotSt).notify_task
      with
    | none =>
      simp [hnt, hpa, List.erase_cons_head]
    | some id =>
      simp [hnt, hpa, List.erase_cons_head]

theorem step_pollInv (st : BotSt) (c : BotCmd) (h : pollInv st = true) :
    pollInv (botStep st c) = true := by
  cases c with
  | monitor => exact start_pollInv st h
  | stop =>
    show pollInv (cancelNotify (cancelPolling st)) = true
    rw [cancelNotify_pollInv]
    exact cancelPolling_pollInv st h
  | checkedFound => exact finish_pollInv st h

theorem runCmds_pollInv (cmds : List BotCmd) (st : BotSt) (h : pollInv st = true) :
    pollInv (runCmds st cmds) = true := by
  induction cmds generalizing st with
  | nil => exact h
  | cons c cs ih => exact ih (botStep st c) (step_pollInv st c h)

theorem pollInv_length (st : BotSt) (h : pollInv st = true) :
    st.pollAlive.length ≤ 1 := by
  rcases pollInv_cases st h with hnil | ⟨x, hpa, _⟩
  · simp [hnil]
  · simp [hpa]

theorem once_nop (K : String) (pre post : List String) (evs : List Event)
    (hp : post = pre) (hc : countKey K evs = 0) : OncePer K pre post evs := by
  subst hp
  refine ⟨fun h => ⟨h, hc⟩, fun h => ⟨by omega, ?_⟩⟩
  rw [hc]
  exact ⟨fun hm => absurd hm h, by omega⟩

theorem once_refl (K : String) (s : List String) : OncePer K s s [] :=
  once_nop K s s [] rfl rfl

theorem once_add (K id : String) (pre : List String) (evs : List Event)
    (hid : id ∉ pre) (hc : countKey K evs = if id = K then 1 else 0) :
    OncePer K pre (id :: pre) evs := by
  constructor
  · intro hK
    have hne : ¬ id = K := fun h => hid (h ▸ hK)
    rw [hc, if_neg hne]
    exact ⟨List.mem_cons_of_mem _ hK, rfl⟩
  · intro hK
    by_cases h : id = K
    · subst h
      rw [hc, if_pos rfl]
      exact ⟨le_refl 1, by simp⟩
    · rw [hc, if_neg h]
      refine ⟨by omega, ?_⟩
      constructor
      · intro hm
        rcases List.mem_cons.mp hm with h1 | h1
        · exact absurd h1.symm h
        · exact absurd h1 hK
      · omega

theorem once_trans (K : String) (s1 s2 s3 : List String)
    (e1 e2 : List Event) (h1 : OncePer K s1 s2 e1) (h2 : OncePer K s2 s3 e2) :
    OncePer K s1 s3 (e1 ++ e2) := by
  rw [OncePer, countKey_append]
  constructor
  · intro hK
    obtain ⟨hm2, hc1⟩ := h1.1 hK
    obtain ⟨hm3, hc2⟩ := h2.1 hm2
    exact ⟨hm3, by omega⟩
  · intro hK
    obtain ⟨hle1, hiff1⟩ := h1.2 hK
    by_cases hm2 : K ∈ s2
    · obtain ⟨hm3, hc2⟩ := h2.1 hm2
      have hc1 : countKey K e1 = 1 := hiff1.mp hm2
      refine ⟨by omega, ?_⟩
      constructor
      · intro _; omega
      · intro _; exact hm3
    · obtain ⟨hle2, hiff2⟩ := h2.2 hm2
      have hc1 : countKey K e1 = 0 := by
        rcases Nat.lt_or_ge (countKey K e1) 1 with h | h
        · omega
        · exact absurd (hiff1.mpr (by omega)) hm2
      refine ⟨by omega, ?_⟩
      rw [hc1]
      simpa using hiff2

theorem checkedBlock_notified (row : Row) (e : Record) (st : St) (evs : List Event) :
    (checkedBlock row e st evs).st.notified = st.notified := by
  obtain ⟨notified, plan⟩ := st
  unfold checkedBlock
  by_cases h : truthy row.otsenkaCol
  · cases plan with
    | nil => simp [h, StepRes.st, List.headD]
    | cons b l => cases b <;> simp [h, StepRes.st, List.headD]
  · simp [h, StepRes.st]

theorem checkedBlock_count (K : String) (row : Row) (e : Record) (st : St)
    (evs : List Event) :
    countKey K (checkedBlock row e st evs).evs = countKey K evs := by
  obtain ⟨notified, plan⟩ := st
  unfold checkedBlock
  by_cases h : truthy row.otsenkaCol
  · cases plan with
    | nil => simp [h, StepRes.evs, List.headD, countKey_append, countKey, evKey]
    | cons b l =>
      cases b <;> simp [h, StepRes.evs, List.headD, countKey_append, countKey, evKey]
  · simp [h, StepRes.evs]

theorem checkedBlock_once (K : String) (row : Row) (e : Record) (st : St) :
    OncePer K st.notified (checkedBlock row e st []).st.notified
      (checkedBlock row e st []).evs :=
  once_nop K st.notified _ _ (checkedBlock_notified row e st [])
    (by rw [checkedBlock_count]; rfl)

theorem processEntry_once (K : String) (data : List Row) (e : Record) (st : St) :
    OncePer K st.notified (processEntry data e st).st.notified
      (processEntry data e st).evs := by
  unfold processEntry
  cases hfind : find_entry data e.timestamp e.name e.task with
  | none => exact once_refl K st.notified
  | some row =>
    by_cases hrev : (truthy row.proverCol && !truthy row.otsenkaCol) = true
    · simp only [hrev, if_true]
      by_cases hmem : entry_id e ∈ st.notified
      · simp only [hmem, if_pos]
        exact checkedBlock_once K row e st
      · simp only [hmem, if_neg, not_false_iff]
        by_cases hok : st.plan.headD true = true
        · simp only [hok, if_true]
          rw [show (checkedBlock row e ⟨entry_id e :: st.notified, st.plan.tail⟩
              [.sentOnReview e.timestamp e.name e.task, .imageOpened]).st.notified
              = entry_id e :: st.notified from
            checkedBlock_notified row e ⟨entry_id e :: st.notified, st.plan.tail⟩ _]
          apply once_add K (entry_id e) st.notified _ hmem
          rw [checkedBlock_count]
          by_cases hK : entry_id e = K
          · simp [countKey, evKey, hK]
          · simp [countKey, evKey, hK]
        · simp only [hok, if_false]
          apply once_add K (entry_id e) st.notified _ hmem
          by_cases hK : entry_id e = K
          · simp [StepRes.evs, countKey, evKey, hK]
          · simp [StepRes.evs, countKey, evKey, hK]
    · simp only [hrev, if_false]
      exact checkedBlock_once K row e st

theorem processEntries_once (K : String) (data : List Row) (entries : List Record)
    (st : St) :
    OncePer K st.notified (processEntries data entries st).st.notified
      (processEntries data entries st).evs := by
  induction entries generalizing st with
  | nil => exact once_refl K st.notified
  | cons e rest ih =>
    have he := processEntry_once K data e st
    simp only [processEntries]
    cases hstep : processEntry data e st with
    | cont st1 evs =>
      rw [hstep] at he
      simp only [StepRes.st, StepRes.evs] at he
      dsimp only
      have hr := ih st1
      cases hrec : processEntries data rest st1 with
      | cont st2 evs' =>
        rw [hrec] at hr
        simp only [StepRes.st, StepRes.evs] at hr
        dsimp only
        exact once_trans K _ _ _ _ _ he hr
      | raised st2 evs' =>
        rw [hrec] at hr
        simp only [StepRes.st, StepRes.evs] at hr
        dsimp only
        exact once_trans K _ _ _ _ _ he hr
      | stopped st2 evs' n k =>
        rw [hrec] at hr
        simp only [StepRes.st, StepRes.evs] at hr
        dsimp only
        exact once_trans K _ _ _ _ _ he hr
    | raised st1 evs =>
      rw [hstep] at he
      exact he
    | stopped st1 evs n k =>
      rw [hstep] at he
      exact he

theorem processGids_once (K : String) (fetches : List Fetch) (entries : List Record)
    (st : St) :
    OncePer K st.notified (processGids fetches entries st).st.notified
      (processGids fetches entries st).events := by
  induction fetches generalizing st with
  | nil => exact once_refl K st.notified
  | cons src rest ih =>
    cases src with
    | none => exact ih st
    | some data =>
      have he := processEntries_once K data entries st
      simp only [processGids]
      cases hstep : processEntries data entries st with
      | cont st1 evs =>
        rw [hstep] at he
        exact once_trans K _ _ _ _ _ he (ih st1)
      | raised st1 evs =>
        rw [hstep] at he
        exact once_trans K _ _ _ _ _ he (ih st1)
      | stopped st1 evs n k =>
        rw [hstep] at he
        exact he

theorem pollCycle_once (K : String) (entries : List Record) (fetches : List Fetch)
    (st : St) :
    OncePer K st.notified (pollCycle entries fetches st).st.notified
      (pollCycle entries fetches st).events := by
  unfold pollCycle
  by_cases h : entries.isEmpty
  · simp only [h, if_true]
    exact once_refl K st.notified
  · simp only [h, if_false]
    exact processGids_once K fetches entries st

theorem check_entry_status_skip (src : Fetch) (rest : List Fetch)
    (t n k : String) (h : srcNoMatch src t n k = true) :
    check_entry_status (src :: rest) t n k = check_entry_status rest t n k := by
  cases src with
  | none => rfl
  | some data =>
    simp only [srcNoMatch, Option.isNone_iff_eq_none] at h
    simp only [check_entry_status, h]

theorem check_entry_status_match (pre : List Fetch) (data : List Row)
    (rest : List Fetch) (t n k : String) (row : Row)
    (hpre : ∀ src ∈ pre, srcNoMatch src t n k = true)
    (hrow : find_entry data t n k = some row) :
    check_entry_status (pre ++ some data :: rest) t n k =
      (if truthy row.otsenkaCol then "checked"
       else if truthy row.proverCol then "on_review" else "exists", some row) := by
  induction pre with
  | nil =>
    simp only [List.nil_append, check_entry_status, hrow]
    by_cases ho : truthy row.otsenkaCol
    · simp [ho]
    · by_cases hp : truthy row.proverCol
      · simp [ho, hp]
      · simp [ho, hp]
  | cons src pre' ih =>
    rw [List.cons_append,
      check_entry_status_skip src _ t n k (hpre src (List.mem_cons_self src pre'))]
    exact ih fun s hs => hpre s (List.mem_cons_of_mem src hs)

theorem check_entry_status_nomatch (fetches : List Fetch) (t n k : String)
    (h : ∀ src ∈ fetches, srcNoMatch src t n k = true) :
    check_entry_status fetches t n k = ("not_found", none) := by
  induction fetches with
  | nil => rfl
  | cons src rest ih =>
    rw [check_entry_status_skip src rest t n k (h src (List.mem_cons_self src rest))]
    exact ih fun s hs => h s (List.mem_cons_of_mem src hs)

theorem processEntries_prefix_nomatch (data : List Row) (pre l2 : List Record)
    (st : St) (h : ∀ e ∈ pre, find_entry data e.timestamp e.name e.task = none) :
    processEntries data (pre ++ l2) st = processEntries data l2 st := by
  induction pre with
  | nil => rfl
  | cons e rest ih =>
    have hstep : processEntry data e st = .cont st [] := by
      unfold processEntry
      rw [h e (List.mem_cons_self e rest)]
    rw [List.cons_append]
    simp only [processEntries, hstep]
    rw [ih (fun e' he' => h e' (List.mem_cons_of_mem e he'))]
    cases processEntries data l2 st <;> simp

theorem runCycles_once (K : String) (inputs : List CycleIn) (st : St) :
    OncePer K st.notified (runCycles inputs st).st.notified
      (runCycles inputs st).events := by
  induction inputs generalizing st with
  | nil => exact once_refl K st.notified
  | cons c rest ih =>
    obtain ⟨entries, fetches⟩ := c
    have hc := pollCycle_once K entries fetches st
    simp only [runCycles]
    cases hcyc : pollCycle entries fetches st with
    | mk st1 evs rem =>
      rw [hcyc] at hc
      cases rem with
      | some r => exact hc
      | none => exact once_trans K _ _ _ _ _ hc (ih st1)

/-!
## The claims
-/

/-- Claim C1: for a fetched row set whose first matching source yields a
matched row, `check_entry_status` classifies that row as "checked" when its
grade field is non-empty (regardless of the reviewer field), else
"on_review" when the reviewer field is non-empty, else "exists"; and it
returns "not_found" when no source contains a matching row. -/
theorem spec_C1 (fetches : List Fetch) (t n k : String) :
    (∀ (pre : List Fetch) (data : List Row) (rest : List Fetch) (row : Row),
      fetches = pre ++ some data :: rest →
      (∀ src ∈ pre, srcNoMatch src t n k = true) →
      find_entry data t n k = some row →
      check_entry_status fetches t n k =
        (if truthy row.otsenkaCol then "checked"
         else if truthy row.proverCol then "on_review" else "exists", some row))
    ∧ ((∀ src ∈ fetches, srcNoMatch src t n k = true) →
      check_entry_status fetches t n k = ("not_found", none)) := by
  constructor
  · intro pre data rest row hsplit hpre hrow
    rw [hsplit]
    exact check_entry_status_match pre data rest t n k row hpre hrow
  · intro h
    exact check_entry_status_nomatch fetches t n k h

/-- Witness for C1: a concrete classification in the second source, with
both reviewer and grade set (grade wins), and a concrete "not_found". -/
theorem spec_C1_witness :
    check_entry_status
        [none, some [⟨some "t", some "n", some "k", some "r", some "10"⟩]] "t" "n" "k"
      = ("checked", some ⟨some "t", some "n", some "k", some "r", some "10"⟩)
  ∧ check_entry_status [none, some []] "t" "n" "k" = ("not_found", none) := by
  constructor
  · have h := (spec_C1
      [none, some [⟨some "t", some "n", some "k", some "r", some "10"⟩]] "t" "n" "k").1
      [none] [⟨some "t", some "n", some "k", some "r", some "10"⟩] []
      ⟨some "t", some "n", some "k", some "r", some "10"⟩ rfl (by decide) (by decide)
    exact h.trans (by decide)
  · exact (spec_C1 [none, some []] "t" "n" "k").2 (by decide)

/-- Claim C2: a monitoring session (`monitor_gsheet`) clears the
notified-key set at its start — so its behaviour does not depend on the set
left over by a previous session, and stopping and restarting allows a
renewed notification — and within one session at most one "now under
review" notification attempt is made per tracked record, over arbitrarily
many polling cycles with arbitrary (in particular unchanged) fetched
data. -/
theorem spec_C2 (prev : St) (inputs : List CycleIn) (r : Record) :
    monitor_gsheet inputs prev = monitor_gsheet inputs ⟨[], prev.plan⟩
  ∧ countKey (entry_id r) (monitor_gsheet inputs prev).events ≤ 1 := by
  constructor
  · rfl
  · have h := runCycles_once (entry_id r) inputs ⟨[], prev.plan⟩
    have h2 := h.2 (by simp)
    exact h2.1

/-- Counterexample for C3: a record present in source A (matching row with
neither reviewer nor grade set, i.e. classification "exists" — as the
classifier itself confirms) is nevertheless processed against source B in
the same polling cycle, where its row carries a reviewer, and an on-review
notification is emitted.  Under the claim, source A's match would determine
the record's classification and source B would not be consulted for it, so
no notification could arise. -/
theorem spec_C3_counterexample :
    find_entry [⟨some "t1", some "n1", some "k1", none, none⟩] "t1" "n1" "k1"
      = some ⟨some "t1", some "n1", some "k1", none, none⟩
  ∧ (check_entry_status
      [some [⟨some "t1", some "n1", some "k1", none, none⟩],
       some [⟨some "t1", some "n1", some "k1", some "rev", none⟩]] "t1" "n1" "k1").1
      = "exists"
  ∧ pollCycle [⟨"t1", "n1", "k1"⟩]
      [some [⟨some "t1", some "n1", some "k1", none, none⟩],
       some [⟨some "t1", some "n1", some "k1", some "rev", none⟩]] ⟨[], []⟩
      = ⟨⟨["t1|n1|k1"], []⟩, [.sentOnReview "t1" "n1" "k1", .imageOpened], none⟩ := by
  refine ⟨by decide, by decide, by decide⟩

/-- C3 as amended: in `check_entry_status` (the classifier used by the
add-entry validation) sources are consulted in the configured order and the
first source containing a matching row determines the classification —
later sources are not consulted (the result is independent of them), and a
record absent from one source resolves to the next source's
classification.  The polling loop (`monitor_gsheet`), by contrast, consults
every source for every record in each cycle: a record already matched in an
earlier source as a plain "exists" row is still processed against the
remaining sources. -/
theorem spec_C3_amended :
    (∀ (pre : List Fetch) (data : List Row) (rest rest' : List Fetch) (t n k : String),
      (∀ src ∈ pre, srcNoMatch src t n k = true) →
      (find_entry data t n k).isSome = true →
      check_entry_status (pre ++ some data :: rest) t n k
        = check_entry_status (pre ++ some data :: rest') t n k)
  ∧ (∀ (src : Fetch) (rest : List Fetch) (t n k : String),
      srcNoMatch src t n k = true →
      check_entry_status (src :: rest) t n k = check_entry_status rest t n k)
  ∧ (∀ (data : List Row) (rest : List Fetch) (e : Record) (row : Row) (st : St),
      find_entry data e.timestamp e.name e.task = some row →
      truthy row.proverCol = false → truthy row.otsenkaCol = false →
      processGids (some data :: rest) [e] st = processGids rest [e] st) := by
  refine ⟨?_, ?_, ?_⟩
  · intro pre data rest rest' t n k hpre hsome
    cases hrow : find_entry data t n k with
    | none => rw [hrow] at hsome; simp at hsome
    | some row =>
      rw [check_entry_status_match pre data rest t n k row hpre hrow,
        check_entry_status_match pre data rest' t n k row hpre hrow]
  · intro src rest t n k h
    exact check_entry_status_skip src rest t n k h
  · intro data rest e row st hfind hp ho
    have hstep : processEntry data e st = .cont st [] := by
      unfold processEntry
      rw [hfind]
      simp [hp, ho, checkedBlock]
    have hents : processEntries data [e] st = .cont st [] := by
      simp only [processEntries, hstep]
      simp
    simp only [processGids, hents]
    simp

/-- Witness for the amended C3: concrete instances of the three parts. -/
theorem spec_C3_witness :
    check_entry_status
        [none, some [⟨some "t", some "n", some "k", none, none⟩], some []] "t" "n" "k"
      = check_entry_status [none, some [⟨some "t", some "n", some "k", none, none⟩]]
          "t" "n" "k"
  ∧ check_entry_status [none, some [⟨some "t", some "n", some "k", none, none⟩]]
        "t" "n" "k"
      = check_entry_status [some [⟨some "t", some "n", some "k", none, none⟩]] "t" "n" "k"
  ∧ processGids [some [⟨some "t", some "n", some "k", none, none⟩]] [⟨"t", "n", "k"⟩]
        ⟨[], []⟩
      = processGids [] [⟨"t", "n", "k"⟩] ⟨[], []⟩ := by
  refine ⟨?_, ?_, ?_⟩
  · exact spec_C3_amended.1 [none] [⟨some "t", some "n", some "k", none, none⟩]
      [some []] [] "t" "n" "k" (by decide) (by decide)
  · exact spec_C3_amended.2.1 none [some [⟨some "t", some "n", some "k", none, none⟩]]
      "t" "n" "k" (by decide)
  · exact spec_C3_amended.2.2 [⟨some "t", some "n", some "k", none, none⟩] []
      ⟨"t", "n", "k"⟩ ⟨some "t", some "n", some "k", none, none⟩ ⟨[], []⟩
      (by decide) (by decide) (by decide)

/-- Claim C4: within a polling cycle, when a tracked record's matched row
has its grade field set (the record classifies as "checked") and the send
succeeds, the loop emits the graded notification, triggers the `open_image`
hook, returns `some (name, task)` — the message content handed to the
fresh `periodic_notify` task — and stops: the remaining entries of the
sheet, the remaining sheets of the cycle and all later cycles are not
processed (the result does not depend on `more`, `rest` or
`moreInputs`). -/
theorem spec_C4 (data : List Row) (rest : List Fetch) (pre more : List Record)
    (moreInputs : List CycleIn) (e : Record) (st : St) (row : Row)
    (hpre : ∀ e' ∈ pre, find_entry data e'.timestamp e'.name e'.task = none)
    (hrow : find_entry data e.timestamp e.name e.task = some row)
    (hgrade : truthy row.otsenkaCol = true)
    (hsend : st.plan.headD true = true) :
    runCycles ((pre ++ e :: more, some data :: rest) :: moreInputs) st =
      ⟨⟨st.notified, st.plan.tail⟩, [.sentGraded e.name e.task, .imageOpened],
        some (e.name, e.task)⟩ := by
  have hguard : (truthy row.proverCol && !truthy row.otsenkaCol) = false := by
    rw [hgrade]
    simp
  have hsend' : st.plan.head?.getD true = true := by
    cases hp2 : st.plan with
    | nil => rfl
    | cons b l =>
      rw [hp2] at hsend
      simpa [List.headD] using hsend
  have hstep : processEntry data e st = .stopped ⟨st.notified, st.plan.tail⟩
      [.sentGraded e.name e.task, .imageOpened] e.name e.task := by
    unfold processEntry
    rw [hrow]
    simp [hguard, checkedBlock, hgrade, hsend, hsend']
  have hents : processEntries data (pre ++ e :: more) st
      = .stopped ⟨st.notified, st.plan.tail⟩
          [.sentGraded e.name e.task, .imageOpened] e.name e.task := by
    rw [processEntries_prefix_nomatch data pre (e :: more) st hpre]
    simp only [processEntries, hstep]
  have hem : (pre ++ e :: more).isEmpty = false := by
    cases pre <;> rfl
  have hcyc : pollCycle (pre ++ e :: more) (some data :: rest) st
      = ⟨⟨st.notified, st.plan.tail⟩, [.sentGraded e.name e.task, .imageOpened],
          some (e.name, e.task)⟩ := by
    unfold pollCycle
    rw [hem]
    simp only [Bool.false_eq_true, if_false, processGids, hents]
  simp only [runCycles, hcyc]

/-- Witness for C4: a concrete graded record ends the session immediately,
ignoring a second (failing) sheet and a whole further scheduled cycle. -/
theorem spec_C4_witness :
    runCycles
        [([⟨"t", "n", "k"⟩],
          [some [⟨some "t", some "n", some "k", some "rev", some "5"⟩], none]),
         ([⟨"t", "n", "k"⟩], [none, none])] ⟨[], []⟩
      = ⟨⟨[], []⟩, [.sentGraded "n" "k", .imageOpened], some ("n", "k")⟩ := by
  exact spec_C4 [⟨some "t", some "n", some "k", some "rev", some "5"⟩] [none] [] []
    [([⟨"t", "n", "k"⟩], [none, none])] ⟨"t", "n", "k"⟩ ⟨[], []⟩
    ⟨some "t", some "n", some "k", some "rev", some "5"⟩
    (by decide) (by decide) (by decide) (by decide)

/-- Claim C5: an add request whose classification is "not_found" or
"checked" is rejected with the corresponding message and leaves the entry
list unmodified with no save; adding a record already tracked (triple
equality) leaves the list unchanged, saves nothing, and — in the statuses
where insertion is attempted at all — reports it as already tracked. -/
theorem spec_C5 (fetches : List Fetch) (t n k : String) (entries : List Record) :
    ((check_entry_status fetches t n k).1 = "not_found" →
      handle_add fetches t n k entries = (entries, false, [msgNotFoundReject]))
  ∧ ((check_entry_status fetches t n k).1 = "checked" →
      handle_add fetches t n k entries = (entries, false, [msgAlreadyCheckedReject]))
  ∧ ((⟨t, n, k⟩ : Record) ∈ entries →
      (handle_add fetches t n k entries).1 = entries
      ∧ (handle_add fetches t n k entries).2.1 = false
      ∧ (((check_entry_status fetches t n k).1 = "on_review"
          ∨ (check_entry_status fetches t n k).1 = "exists") →
          msgAlreadyTracked ∈ (handle_add fetches t n k entries).2.2)) := by
  refine ⟨?_, ?_, ?_⟩
  · intro h
    simp [handle_add, h]
  · intro h
    simp [handle_add, h]
  · intro hmem
    by_cases h1 : (check_entry_status fetches t n k).1 = "not_found"
    · refine ⟨by simp [handle_add, h1], by simp [handle_add, h1], ?_⟩
      intro hc
      rcases hc with hc | hc <;> rw [h1] at hc <;> exact absurd hc (by decide)
    · by_cases h2 : (check_entry_status fetches t n k).1 = "checked"
      · refine ⟨by simp [handle_add, h1, h2], by simp [handle_add, h1, h2], ?_⟩
        intro hc
        rcases hc with hc | hc <;> rw [h2] at hc <;> exact absurd hc (by decide)
      · by_cases h3 : (check_entry_status fetches t n k).1 = "on_review"
        · exact ⟨by simp [handle_add, h1, h2, h3, hmem],
            by simp [handle_add, h1, h2, h3, hmem],
            fun _ => by simp [handle_add, h1, h2, h3, hmem]⟩
        · by_cases h4 : (check_entry_status fetches t n k).1 = "exists"
          · exact ⟨by simp [handle_add, h1, h2, h3, h4, hmem],
              by simp [handle_add, h1, h2, h3, h4, hmem],
              fun _ => by simp [handle_add, h1, h2, h3, h4, hmem]⟩
          · refine ⟨by simp [handle_add, h1, h2, h3, h4],
              by simp [handle_add, h1, h2, h3, h4], ?_⟩
            intro hc
            rcases hc with hc | hc
            · exact absurd hc h3
            · exact absurd hc h4

/-- Witness for C5: a concrete rejected add (empty sheet, not found) and a
concrete duplicate add leaving the store untouched. -/
theorem spec_C5_witness :
    handle_add [some []] "t" "n" "k" [] = ([], false, [msgNotFoundReject])
  ∧ (handle_add [none] "t" "n" "k" [⟨"t", "n", "k"⟩]).1 = [⟨"t", "n", "k"⟩] :=
  ⟨(spec_C5 [some []] "t" "n" "k" []).1 (by decide),
   ((spec_C5 [none] "t" "n" "k" [⟨"t", "n", "k"⟩]).2.2 (by decide)).1⟩

/-- Claim C6: `/monitor` while a polling task is running is a no-op that
replies "already running"; every state reachable from process start by
`/monitor`, `/stop` and monitor self-termination has at most one alive
polling task; and starting twice without stopping leaves exactly one. -/
theorem spec_C6 (st : BotSt) (id : Nat) (cmds : List BotCmd) :
    (st.monitoring_task = some id → st.pollAlive.contains id = true →
      start_monitoring st = (st, msgAlreadyRunning))
  ∧ (runCmds botInit cmds).pollAlive.length ≤ 1
  ∧ (runCmds botInit [.monitor, .monitor]).pollAlive.length = 1 := by
  refine ⟨?_, ?_, by decide⟩
  · intro hmt hc
    unfold start_monitoring
    rw [if_neg (by simp only [handleDone, hmt, hc, Bool.not_true]; simp)]
  · exact pollInv_length _ (runCmds_pollInv cmds botInit (by decide))

/-- Witness for C6: after one `/monitor` from the initial state, a second
start request is a no-op that reports "already running". -/
theorem spec_C6_witness :
    start_monitoring (runCmds botInit [.monitor])
      = (runCmds botInit [.monitor], msgAlreadyRunning) :=
  (spec_C6 (runCmds botInit [.monitor]) 0 []).1 (by decide) (by decide)

theorem cancelPolling_notify_task (st : BotSt) :
    (cancelPolling st).notify_task = st.notify_task := by
  unfold cancelPolling
  cases st.monitoring_task with
  | none => rfl
  | some id => by_cases h : id ∈ st.pollAlive <;> simp [h]

theorem cancelPolling_notifyAlive (st : BotSt) :
    (cancelPolling st).notifyAlive = st.notifyAlive := by
  unfold cancelPolling
  cases st.monitoring_task with
  | none => rfl
  | some id => by_cases h : id ∈ st.pollAlive <;> simp [h]

theorem cancelPolling_done (st : BotSt)
    (h : handleDone st.pollAlive st.monitoring_task = true) :
    cancelPolling st = st := by
  unfold cancelPolling
  cases hmt : st.monitoring_task with
  | none => rfl
  | some id =>
    rw [hmt] at h
    simp only [handleDone, Bool.not_eq_true'] at h
    have h2 : id ∉ st.pollAlive := by simpa using h
    simp [h2]

theorem cancelNotify_done (st : BotSt)
    (h : handleDone st.notifyAlive st.notify_task = true) :
    cancelNotify st = st := by
  unfold cancelNotify
  cases hnt : st.notify_task with
  | none => rfl
  | some id =>
    rw [hnt] at h
    simp only [handleDone, Bool.not_eq_true'] at h
    have h2 : id ∉ st.notifyAlive := by simpa using h
    simp [h2]

theorem cancelPolling_handleDone (st : BotSt) :
    handleDone (cancelPolling st).pollAlive (cancelPolling st).monitoring_task
      = true := by
  unfold cancelPolling
  cases hmt : st.monitoring_task with
  | none =>
    simp [handleDone, hmt]
  | some id =>
    by_cases h : id ∈ st.pollAlive
    · simp [h, handleDone]
    · simp [h, handleDone, hmt]

theorem cancelNotify_handleDone (st : BotSt) :
    handleDone (cancelNotify st).notifyAlive (cancelNotify st).notify_task
      = true := by
  unfold cancelNotify
  cases hnt : st.notify_task with
  | none =>
    simp [handleDone, hnt]
  | some id =>
    by_cases h : id ∈ st.notifyAlive
    · simp [h, handleDone]
    · simp [h, handleDone, hnt]

/-- Counterexample for C7: `/stop` with no task active replies with exactly
the same "Мониторинг и уведомления остановлены." acknowledgment it gives
when a polling task is active — the handler has no branch producing a
distinct "not running" report — and otherwise changes nothing. -/
theorem spec_C7_counterexample :
    (stop_monitoring botInit).2 = msgStopped
  ∧ (stop_monitoring (botStep botInit .monitor)).2 = msgStopped
  ∧ (stop_monitoring botInit).1 = botInit := by
  refine ⟨rfl, rfl, by decide⟩

/-- C7 as amended: `/stop` cancels the polling task and the reminder task
when they are active and sets those handles to `None`; stopping when no
task is active is safe (the state is unchanged) and stopping is idempotent;
the reply is always the same "stopped" acknowledgment — the code does not
produce a distinct "not running" report for the inactive case. -/
theorem spec_C7_amended (st : BotSt) (pid nid : Nat) :
    ((stop_monitoring st).2 = msgStopped)
  ∧ (st.monitoring_task = some pid → st.pollAlive = [pid] →
      (stop_monitoring st).1.monitoring_task = none
      ∧ (stop_monitoring st).1.pollAlive = [])
  ∧ (st.notify_task = some nid → st.notifyAlive = [nid] →
      (stop_monitoring st).1.notify_task = none
      ∧ (stop_monitoring st).1.notifyAlive = [])
  ∧ (handleDone st.pollAlive st.monitoring_task = true →
      handleDone st.notifyAlive st.notify_task = true →
      (stop_monitoring st).1 = st)
  ∧ (stop_monitoring (stop_monitoring st).1).1 = (stop_monitoring st).1 := by
  refine ⟨rfl, ?_, ?_, ?_, ?_⟩
  · intro hmt hpa
    have hcp : cancelPolling st =
        { st with monitoring_task := none, pollAlive := st.pollAlive.erase pid } := by
      unfold cancelPolling
      rw [hmt, hpa]
      simp
    show ((cancelNotify (cancelPolling st)).monitoring_task = none
      ∧ (cancelNotify (cancelPolling st)).pollAlive = [])
    rw [cancelNotify_monitoring_task, cancelNotify_pollAlive, hcp]
    simp [hpa, List.erase_cons_head]
  · intro hnt hna
    have hnt' : (cancelPolling st).notify_task = some nid := by
      rw [cancelPolling_notify_task, hnt]
    have hna' : (cancelPolling st).notifyAlive = [nid] := by
      rw [cancelPolling_notifyAlive, hna]
    show ((cancelNotify (cancelPolling st)).notify_task = none
      ∧ (cancelNotify (cancelPolling st)).notifyAlive = [])
    unfold cancelNotify
    rw [hnt', hna']
    simp [List.erase_cons_head]
  · intro hp hn
    show cancelNotify (cancelPolling st) = st
    rw [cancelPolling_done st hp, cancelNotify_done st hn]
  · show cancelNotify (cancelPolling (cancelNotify (cancelPolling st)))
      = cancelNotify (cancelPolling st)
    have h1 : cancelPolling (cancelNotify (cancelPolling st))
        = cancelNotify (cancelPolling st) := by
      apply cancelPolling_done
      rw [cancelNotify_pollAlive, cancelNotify_monitoring_task]
      exact cancelPolling_handleDone st
    rw [h1]
    apply cancelNotify_done
    exact cancelNotify_handleDone (cancelPolling st)

/-- Witness for the amended C7: stopping a state with an active polling
task and an active reminder task cancels both and clears both handles;
stopping the initial state changes nothing. -/
theorem spec_C7_witness :
    (stop_monitoring ⟨some 0, some 1, [0], [1], 2⟩).1.monitoring_task = none
  ∧ (stop_monitoring ⟨some 0, some 1, [0], [1], 2⟩).1.notifyAlive = []
  ∧ (stop_monitoring botInit).1 = botInit := by
  have h := spec_C7_amended ⟨some 0, some 1, [0], [1], 2⟩ 0 1
  have h0 := spec_C7_amended botInit 0 1
  exact ⟨(h.2.1 rfl rfl).1, (h.2.2.1 rfl rfl).2, h0.2.2.2.1 (by decide) (by decide)⟩

/-- Counterexample for C8: when `entries.json` exists but opening it raises
(an unreadable backing store), the exception propagates out of
`load_entries` — the `try` block in the source only wraps `json.load`, not
`open` — so "returns an empty list, never raising, whenever the backing
store is absent or unreadable" fails. -/
theorem spec_C8_counterexample : load_entries .openFails = .error () := rfl

/-- C8 as amended: `load_entries` returns the persisted list; when the file
is absent, or when its content cannot be parsed (`json.load` raises, which
is caught and logged), it returns an empty list without raising; but when
the existing file cannot be opened, the exception propagates to the
caller. -/
theorem spec_C8_amended (es : List Record) :
    load_entries .absent = .ok []
  ∧ load_entries .unparsable = .ok []
  ∧ load_entries (.ok es) = .ok es
  ∧ load_entries .openFails = .error () :=
  ⟨rfl, rfl, rfl, rfl⟩

/-- Claim C9: the reminder loop performs one send attempt of its fixed text
followed by a `PERIODIC_NOTIFY_INTERVAL` (30) sleep on every tick, for as
many ticks as it is allowed to run, regardless of which sends fail — a
failed send never shortens or ends the loop, which only stops by external
cancellation (the fuel bound). -/
theorem spec_C9 (text : String) (oracle : Nat → Bool) (i fuel : Nat) :
    (periodic_notify text oracle i fuel).length = fuel
  ∧ (∀ tk ∈ periodic_notify text oracle i fuel,
      tk.text = text ∧ tk.sleep = PERIODIC_NOTIFY_INTERVAL) := by
  induction fuel generalizing i with
  | zero => exact ⟨rfl, by intro tk h; simp [periodic_notify] at h⟩
  | succ n ih =>
    obtain ⟨ihl, ihm⟩ := ih (i + 1)
    refine ⟨by simp [periodic_notify, ihl], ?_⟩
    intro tk h
    rcases List.mem_cons.mp h with h1 | h1
    · rw [h1]
      exact ⟨rfl, rfl⟩
    · exact ihm tk h1

/-- Witness for C9: two ticks of an always-failing sender still yield two
full iterations of the fixed message. -/
theorem spec_C9_witness :
    (periodic_notify "r" (fun _ => false) 0 2).length = 2
  ∧ (⟨"r", false, PERIODIC_NOTIFY_INTERVAL⟩ : ReminderTick).text = "r" := by
  have h := spec_C9 "r" (fun _ => false) 0 2
  exact ⟨h.1, (h.2 ⟨"r", false, PERIODIC_NOTIFY_INTERVAL⟩ (by decide)).1⟩

/-- Claim C10: in the polling loop, the record's dedup key is inserted into
`notified_on_review` before the on-review send is attempted, so when the
send raises the step aborts (the per-sheet handler catches it) with the key
already recorded; a record whose key is recorded triggers no further
on-review attempt (its step is a silent pass), and over any remaining run
of the session no attempt at all is made for a recorded key. -/
theorem spec_C10 (data : List Row) (e : Record) (st : St) (row : Row)
    (inputs : List CycleIn) :
    (find_entry data e.timestamp e.name e.task = some row →
      truthy row.proverCol = true → truthy row.otsenkaCol = false →
      entry_id e ∉ st.notified → st.plan.headD true = false →
      processEntry data e st =
        .raised ⟨entry_id e :: st.notified, st.plan.tail⟩
          [.failedOnReview e.timestamp e.name e.task])
  ∧ (find_entry data e.timestamp e.name e.task = some row →
      truthy row.proverCol = true → truthy row.otsenkaCol = false →
      entry_id e ∈ st.notified →
      processEntry data e st = .cont st [])
  ∧ (entry_id e ∈ st.notified →
      countKey (entry_id e) (runCycles inputs st).events = 0) := by
  refine ⟨?_, ?_, ?_⟩
  · intro hfind hp ho hmem hplan
    have hplan' : st.plan.head?.getD true = false := by
      cases hp2 : st.plan with
      | nil => rw [hp2] at hplan; simp [List.headD] at hplan
      | cons b l =>
        rw [hp2] at hplan
        simpa [List.headD] using hplan
    unfold processEntry
    rw [hfind]
    simp [hp, ho, hmem, hplan']
  · intro hfind hp ho hmem
    unfold processEntry
    rw [hfind]
    simp [hp, ho, hmem, checkedBlock]
  · intro hmem
    exact ((runCycles_once (entry_id e) inputs st).1 hmem).2

/-- Witness for C10: a concrete failing on-review send records the key and
raises; with the key recorded, the same data produces a silent pass and a
whole further cycle makes no attempt. -/
theorem spec_C10_witness :
    processEntry [⟨some "t", some "n", some "k", some "rev", none⟩]
        ⟨"t", "n", "k"⟩ ⟨[], [false]⟩
      = .raised ⟨["t|n|k"], []⟩ [.failedOnReview "t" "n" "k"]
  ∧ processEntry [⟨some "t", some "n", some "k", some "rev", none⟩]
        ⟨"t", "n", "k"⟩ ⟨["t|n|k"], []⟩
      = .cont ⟨["t|n|k"], []⟩ []
  ∧ countKey "t|n|k"
      (runCycles
        [([⟨"t", "n", "k"⟩],
          [some [⟨some "t", some "n", some "k", some "rev", none⟩]])]
        ⟨["t|n|k"], []⟩).events = 0 := by
  refine ⟨?_, ?_, ?_⟩
  · exact (spec_C10 [⟨some "t", some "n", some "k", some "rev", none⟩]
      ⟨"t", "n", "k"⟩ ⟨[], [false]⟩ ⟨some "t", some "n", some "k", some "rev", none⟩
      []).1 (by decide) (by decide) (by decide) (by decide) (by decide)
  · exact (spec_C10 [⟨some "t", some "n", some "k", some "rev", none⟩]
      ⟨"t", "n", "k"⟩ ⟨["t|n|k"], []⟩ ⟨some "t", some "n", some "k", some "rev", none⟩
      []).2.1 (by decide) (by decide) (by decide) (by decide)
  · exact (spec_C10 [⟨some "t", some "n", some "k", some "rev", none⟩]
      ⟨"t", "n", "k"⟩ ⟨["t|n|k"], []⟩ ⟨some "t", some "n", some "k", some "rev", none⟩
      [([⟨"t", "n", "k"⟩],
        [some [⟨some "t", some "n", some "k", some "rev", none⟩]])]).2.2
      (by decide)
